import Mathlib

/-!
Shallow embedding of the agent/skill recommendation engine of
`workspace-init-mcp` (functions `recommendAgentSkills`, `searchAgentSkills`
and `listCategories`, together with the static catalogs `AGENT_REGISTRY` and
`SKILL_REGISTRY`), and proofs of the testable properties of the spec.

Strings are modelled as Lean `String`; JavaScript `String.prototype.includes`
is modelled as substring containment on the character list, and the stable
JavaScript `Array.prototype.sort` with comparator `(a, b) => b.score - a.score`
is modelled by a stable insertion sort with the corresponding total order.
-/

namespace WorkspaceInitMcp

/-- JS `toLowerCase`, modelled character-wise with `Char.toLower` (the catalog
and all queries are ASCII, where the two agree). -/
def jsToLower (s : String) : String :=
  ⟨s.data.map Char.toLower⟩

/-- JS `hay.includes(needle)`: `needle` occurs as a contiguous substring of
`hay` (true for the empty needle). -/
def jsIncludes (hay needle : String) : Bool :=
  hay.toList.tails.any (fun t => needle.toList.isPrefixOf t)

/-- JS `l.slice(0, n)` for an arbitrary (possibly negative) number `n`:
a negative end index counts from the end of the list, clamped at 0. -/
def jsSlice0 {α : Type} (n : Int) (l : List α) : List α :=
  l.take (if n < 0 then ((l.length : Int) + n).toNat else n.toNat)

/-- Stable insertion of `a` into `l`: `a` is placed before the first element
`b` with `le a b`. Inserting into a sorted list keeps it sorted and keeps the
relative order of the old elements. -/
def insertLE {α : Type} (le : α → α → Bool) (a : α) : List α → List α
  | [] => [a]
  | b :: l => if le a b then a :: b :: l else b :: insertLE le a l

/-- Stable sort (insertion sort), modelling the stable JS
`Array.prototype.sort`: for a total transitive comparator it produces the
unique sorted permutation in which elements equal under the comparator keep
their original relative order. Structural recursion, so it evaluates inside
the kernel. -/
def jsSortBy {α : Type} (le : α → α → Bool) : List α → List α
  | [] => []
  | x :: xs => insertLE le x (jsSortBy le xs)

/-- One entry of `AGENT_REGISTRY` (TypeScript interface `AgentEntry`;
`priority` is a JS number, modelled as `Int`). -/
structure AgentEntry where
  id : String
  name : String
  description : String
  categories : List String
  tags : List String
  relevantProjectTypes : List String
  techKeywords : List String
  priority : Int
deriving DecidableEq, Repr, Inhabited

/-- One entry of `SKILL_REGISTRY` (TypeScript interface `SkillEntry`). -/
structure SkillEntry where
  id : String
  name : String
  description : String
  categories : List String
  tags : List String
  relevantProjectTypes : List String
  techKeywords : List String
  hasResources : Bool
  priority : Int
deriving DecidableEq, Repr, Inhabited

/-- Project-type signal of the scorer: +10 when `relevantProjectTypes`
contains the wildcard `"*"` or exactly the `projectType` of the descriptor. -/
def projectTypeScore (relevantProjectTypes : List String) (projectType : String) : Int :=
  if relevantProjectTypes.contains "*" || relevantProjectTypes.contains projectType then 10 else 0

/-- Tech-stack signal of the scorer: +5 for each entry keyword that has a
case-insensitive substring relationship (in either direction) with some
already-lower-cased stack item. -/
def techScore (techLower : List String) (techKeywords : List String) : Int :=
  techKeywords.foldl
    (fun score keyword =>
      if techLower.any (fun t => jsIncludes t (jsToLower keyword) || jsIncludes (jsToLower keyword) t)
      then score + 5 else score) 0

/-- Intent/tag signal of the scorer: +3 for each entry tag contained in the
lower-cased user intent (the tag itself is not lower-cased). -/
def tagScore (intentLower : String) (tags : List String) : Int :=
  tags.foldl (fun score tag => if jsIncludes intentLower tag then score + 3 else score) 0

/-- Unconditional priority bonus `(4 - priority) * 2`. -/
def priorityBonus (priority : Int) : Int :=
  (4 - priority) * 2

/-- Score of one agent against a request descriptor (with the tech stack and
intent already lower-cased, as in `recommendAgentSkills`). -/
def scoreAgent (projectType : String) (techLower : List String) (intentLower : String)
    (agent : AgentEntry) : Int :=
  projectTypeScore agent.relevantProjectTypes projectType
    + techScore techLower agent.techKeywords
    + tagScore intentLower agent.tags
    + priorityBonus agent.priority

/-- Score of one skill against a request descriptor. -/
def scoreSkill (projectType : String) (techLower : List String) (intentLower : String)
    (skill : SkillEntry) : Int :=
  projectTypeScore skill.relevantProjectTypes projectType
    + techScore techLower skill.techKeywords
    + tagScore intentLower skill.tags
    + priorityBonus skill.priority

/-- The static agent catalog (TypeScript constant `AGENT_REGISTRY`). -/
def AGENT_REGISTRY : List AgentEntry := [
  ⟨"plan", "Plan Mode", "Strategic planning and architecture assistant focused on thoughtful analysis before implementation", ["planning"], ["planning", "strategy", "analysis", "think-first"], ["*"], [], 1⟩,
  ⟨"planner", "Planner", "Task planning and breakdown assistant", ["planning"], ["planning", "task-breakdown", "workflow"], ["*"], [], 1⟩,
  ⟨"task-planner", "Task Planner", "Detailed task planning with dependency tracking", ["planning"], ["planning", "tasks", "dependencies"], ["*"], [], 2⟩,
  ⟨"context-architect", "Context Architect", "Plans and executes multi-file changes by identifying relevant context and dependencies", ["architecture", "planning"], ["architecture", "context-map", "dependencies", "multi-file"], ["*"], [], 1⟩,
  ⟨"repo-architect", "Repo Architect", "Bootstraps and validates agentic project structures for GitHub Copilot workflows", ["architecture", "meta"], ["scaffolding", "repo-structure", "agents", "skills"], ["*"], [], 1⟩,
  ⟨"arch", "Architecture", "Software architecture design and review", ["architecture"], ["architecture", "design-patterns", "system-design"], ["web-app", "api", "library", "monorepo"], [], 1⟩,
  ⟨"blueprint-mode", "Blueprint Mode", "Comprehensive project blueprint generation", ["architecture", "planning"], ["blueprint", "architecture", "comprehensive"], ["*"], [], 2⟩,
  ⟨"implementation-plan", "Implementation Plan", "Detailed implementation planning for features and changes", ["planning"], ["implementation", "planning", "features"], ["*"], [], 2⟩,
  ⟨"principal-software-engineer", "Principal Software Engineer", "Principal-level engineering guidance with focus on engineering excellence and pragmatic implementation", ["engineering", "review"], ["best-practices", "clean-code", "solid", "design-patterns", "tech-debt"], ["*"], [], 1⟩,
  ⟨"software-engineer-agent-v1", "Software Engineer Agent", "General-purpose software engineering assistant", ["engineering"], ["coding", "implementation", "general"], ["*"], [], 2⟩,
  ⟨"expert-nextjs-developer", "Expert Next.js Developer", "Specialized Next.js development assistance", ["engineering", "frontend"], ["nextjs", "react", "ssr", "fullstack"], ["web-app"], ["Next.js", "React", "TypeScript"], 2⟩,
  ⟨"expert-react-frontend-engineer", "Expert React Frontend Engineer", "Expert React frontend development", ["engineering", "frontend"], ["react", "frontend", "components", "state-management"], ["web-app"], ["React", "TypeScript", "JavaScript"], 2⟩,
  ⟨"expert-cpp-software-engineer", "Expert C++ Software Engineer", "C++ development expertise", ["engineering"], ["cpp", "systems", "performance"], ["library"], ["C++"], 3⟩,
  ⟨"expert-dotnet-software-engineer", "Expert .NET Software Engineer", ".NET development expertise", ["engineering"], ["dotnet", "csharp", "aspnet"], ["web-app", "api"], [".NET", "C#", "ASP.NET"], 2⟩,
  ⟨"api-architect", "API Architect", "API design and architecture specialist", ["architecture", "backend"], ["api", "rest", "graphql", "openapi"], ["api"], [], 1⟩,
  ⟨"debug", "Debug Mode", "Systematic debugging with 4-phase approach: assess, investigate, resolve, QA", ["debugging"], ["debugging", "troubleshooting", "root-cause"], ["*"], [], 1⟩,
  ⟨"playwright-tester", "Playwright Tester", "E2E testing with Playwright", ["testing"], ["e2e", "playwright", "browser-testing"], ["web-app"], ["Playwright", "TypeScript"], 2⟩,
  ⟨"polyglot-test-builder", "Polyglot Test Builder", "Multi-language test generation and management", ["testing"], ["testing", "polyglot", "multi-language"], ["*"], [], 2⟩,
  ⟨"tdd-red", "TDD Red Phase", "Write failing tests first (Red phase of TDD)", ["testing"], ["tdd", "red", "test-first"], ["*"], [], 2⟩,
  ⟨"tdd-green", "TDD Green Phase", "Make tests pass with minimal code (Green phase of TDD)", ["testing"], ["tdd", "green", "implementation"], ["*"], [], 2⟩,
  ⟨"tdd-refactor", "TDD Refactor Phase", "Refactor code while keeping tests green", ["testing"], ["tdd", "refactor", "clean-code"], ["*"], [], 2⟩,
  ⟨"devops-expert", "DevOps Expert", "DevOps specialist following the infinity loop principle with focus on automation", ["devops"], ["devops", "cicd", "automation", "monitoring", "dora"], ["devops", "api", "web-app"], ["Docker", "Kubernetes", "Terraform"], 1⟩,
  ⟨"platform-sre-kubernetes", "Platform SRE Kubernetes", "Kubernetes platform engineering and SRE", ["devops", "cloud"], ["kubernetes", "sre", "platform", "reliability"], ["devops"], ["Kubernetes", "Docker"], 2⟩,
  ⟨"github-actions-expert", "GitHub Actions Expert", "GitHub Actions CI/CD pipeline specialist", ["devops"], ["github-actions", "cicd", "workflows"], ["*"], ["GitHub Actions"], 2⟩,
  ⟨"terraform", "Terraform", "Terraform infrastructure as code specialist", ["devops", "cloud"], ["terraform", "iac", "infrastructure"], ["devops"], ["Terraform", "HCL"], 2⟩,
  ⟨"se-technical-writer", "Technical Writer", "Technical documentation writing specialist", ["documentation"], ["documentation", "technical-writing", "api-docs"], ["*"], [], 1⟩,
  ⟨"gem-documentation-writer", "Documentation Writer", "Documentation generation and management", ["documentation"], ["documentation", "writing", "markdown"], ["*"], [], 2⟩,
  ⟨"gem-reviewer", "Code Reviewer", "Code review assistant", ["review"], ["code-review", "quality", "standards"], ["*"], [], 1⟩,
  ⟨"se-security-reviewer", "Security Reviewer", "Security-focused code review", ["review", "security"], ["security", "review", "vulnerabilities"], ["*"], [], 2⟩,
  ⟨"se-system-architecture-reviewer", "System Architecture Reviewer", "System architecture review and assessment", ["review", "architecture"], ["architecture", "review", "assessment"], ["*"], [], 2⟩,
  ⟨"critical-thinking", "Critical Thinking", "Challenges assumptions and encourages deeper analysis", ["review"], ["critical-thinking", "analysis", "assumptions"], ["*"], [], 2⟩,
  ⟨"devils-advocate", "Devil\x27s Advocate", "Challenges decisions to strengthen solutions", ["review"], ["devils-advocate", "challenge", "robustness"], ["*"], [], 3⟩,
  ⟨"prompt-engineer", "Prompt Engineer", "Analyzes and improves prompts following OpenAI best practices", ["meta"], ["prompt-engineering", "optimization", "llm"], ["*"], [], 2⟩,
  ⟨"meta-agentic-project-scaffold", "Meta Agentic Project Scaffold", "Meta-agent for pulling and organizing agentic project structures", ["meta"], ["meta", "scaffolding", "agents", "organization"], ["*"], [], 2⟩,
  ⟨"custom-agent-foundry", "Custom Agent Foundry", "Create custom agent definitions", ["meta"], ["agent-creation", "customization", "meta"], ["*"], [], 3⟩,
  ⟨"typescript-mcp-expert", "TypeScript MCP Expert", "TypeScript MCP server development specialist", ["engineering", "backend"], ["mcp", "typescript", "server"], ["api", "library"], ["TypeScript", "MCP"], 2⟩,
  ⟨"python-mcp-expert", "Python MCP Expert", "Python MCP server development specialist", ["engineering", "backend"], ["mcp", "python", "server"], ["api", "data-science"], ["Python", "MCP"], 3⟩,
  ⟨"azure-principal-architect", "Azure Principal Architect", "Azure cloud architecture and best practices", ["cloud", "architecture"], ["azure", "cloud", "architecture", "well-architected"], ["devops", "api", "web-app"], ["Azure"], 2⟩,
  ⟨"ms-sql-dba", "MS SQL DBA", "Microsoft SQL Server database administration", ["data"], ["sql", "database", "mssql", "dba"], ["api", "data-science"], ["SQL Server", "MSSQL"], 3⟩,
  ⟨"postgresql-dba", "PostgreSQL DBA", "PostgreSQL database administration and optimization", ["data"], ["postgresql", "database", "optimization"], ["api", "data-science"], ["PostgreSQL"], 3⟩,
  ⟨"electron-angular-native", "Electron Angular Native", "Electron with Angular desktop application development", ["frontend", "engineering"], ["electron", "angular", "desktop"], ["web-app"], ["Electron", "Angular"], 3⟩,
  ⟨"dotnet-maui", ".NET MAUI", ".NET MAUI cross-platform mobile/desktop development", ["mobile", "engineering"], ["maui", "dotnet", "mobile", "cross-platform"], ["mobile"], [".NET", "MAUI"], 2⟩,
  ⟨"prd", "PRD", "Product Requirements Document generator", ["planning", "documentation"], ["prd", "requirements", "product"], ["*"], [], 2⟩,
  ⟨"specification", "Specification", "Technical specification document generator", ["planning", "documentation"], ["specification", "requirements", "technical"], ["*"], [], 2⟩,
  ⟨"gem-orchestrator", "Orchestrator", "Multi-agent workflow orchestration", ["meta"], ["orchestrator", "workflow", "multi-agent"], ["*"], [], 2⟩,
  ⟨"gem-implementer", "Implementer", "Code implementation from plans", ["engineering"], ["implementation", "coding"], ["*"], [], 2⟩,
  ⟨"gem-researcher", "Researcher", "Technical research and analysis", ["planning"], ["research", "analysis", "investigation"], ["*"], [], 2⟩,
  ⟨"4.1-Beast", "GPT-4.1 Beast Mode", "Maximum performance agent with advanced reasoning and comprehensive capabilities", ["engineering", "meta"], ["beast-mode", "advanced", "comprehensive", "gpt-4.1"], ["*"], [], 3⟩,
  ⟨"mentor", "Mentor", "Learning and mentorship guidance", ["documentation"], ["mentor", "learning", "guidance", "education"], ["learning"], [], 2⟩,
  ⟨"janitor", "Janitor", "Code cleanup and maintenance", ["review"], ["cleanup", "maintenance", "refactor"], ["*"], [], 3⟩]

/-- The static skill catalog (TypeScript constant `SKILL_REGISTRY`). -/
def SKILL_REGISTRY : List SkillEntry := [
  ⟨"copilot-instructions-blueprint-generator", "Copilot Instructions Blueprint", "Technology-agnostic blueprint generator for copilot-instructions.md files", ["blueprint", "project-setup"], ["copilot", "instructions", "blueprint", "standards"], ["*"], [], false, 1⟩,
  ⟨"folder-structure-blueprint-generator", "Folder Structure Blueprint", "Analyzes and documents project folder structures with visualization", ["blueprint", "project-setup"], ["folder-structure", "blueprint", "visualization"], ["*"], [], false, 1⟩,
  ⟨"technology-stack-blueprint-generator", "Technology Stack Blueprint", "Analyzes codebases to create detailed technology stack documentation", ["blueprint", "analysis"], ["tech-stack", "blueprint", "analysis", "documentation"], ["*"], [], false, 1⟩,
  ⟨"architecture-blueprint-generator", "Architecture Blueprint", "Generates comprehensive architecture documentation", ["blueprint"], ["architecture", "blueprint", "documentation"], ["*"], [], false, 1⟩,
  ⟨"readme-blueprint-generator", "README Blueprint", "Generates comprehensive README documentation blueprints", ["blueprint", "document-gen"], ["readme", "blueprint", "documentation"], ["*"], [], false, 2⟩,
  ⟨"code-exemplars-blueprint-generator", "Code Exemplars Blueprint", "Generates code example blueprints for documentation", ["blueprint"], ["code-examples", "blueprint", "documentation"], ["library"], [], false, 2⟩,
  ⟨"project-workflow-analysis-blueprint-generator", "Project Workflow Blueprint", "Analyzes and documents project workflow patterns", ["blueprint", "analysis"], ["workflow", "blueprint", "analysis"], ["*"], [], false, 2⟩,
  ⟨"create-specification", "Create Specification", "Creates specification files optimized for AI consumption", ["document-gen"], ["specification", "requirements", "ai-optimized"], ["*"], [], false, 1⟩,
  ⟨"create-implementation-plan", "Create Implementation Plan", "Creates deterministic, machine-readable implementation plans", ["document-gen"], ["implementation", "planning", "tasks"], ["*"], [], false, 1⟩,
  ⟨"create-readme", "Create README", "Creates professional README.md files", ["document-gen"], ["readme", "documentation", "github"], ["*"], [], false, 1⟩,
  ⟨"create-agentsmd", "Create AGENTS.md", "Creates AGENTS.md — an open-format README for agents", ["document-gen", "project-setup"], ["agents.md", "agent-config", "documentation"], ["*"], [], false, 1⟩,
  ⟨"create-architectural-decision-record", "Create ADR", "Creates Architectural Decision Records for AI-optimized decision documentation", ["document-gen"], ["adr", "architecture", "decisions"], ["*"], [], false, 1⟩,
  ⟨"create-llms", "Create LLMs.txt", "Creates LLMs.txt file for AI context", ["document-gen", "project-setup"], ["llms.txt", "ai-context", "documentation"], ["*"], [], false, 2⟩,
  ⟨"prd", "Product Requirements Document", "Creates Product Requirements Documents (PRD)", ["document-gen"], ["prd", "requirements", "product"], ["web-app", "api", "mobile"], [], false, 2⟩,
  ⟨"conventional-commit", "Conventional Commit", "Generates standardized conventional commit messages", ["git"], ["commit", "conventional", "git", "workflow"], ["*"], [], false, 1⟩,
  ⟨"git-commit", "Git Commit", "Git commit message helper", ["git"], ["commit", "git"], ["*"], [], false, 2⟩,
  ⟨"git-flow-branch-creator", "Git Flow Branch Creator", "Creates branches following Git Flow naming conventions", ["git"], ["git-flow", "branching", "naming"], ["*"], [], false, 2⟩,
  ⟨"generate-custom-instructions-from-codebase", "Generate Custom Instructions", "Generates migration/evolution instructions by analyzing codebase differences", ["code-gen", "migration"], ["instructions", "migration", "evolution", "codebase-analysis"], ["*"], [], false, 1⟩,
  ⟨"typescript-mcp-server-generator", "TypeScript MCP Server Generator", "Generates TypeScript MCP server scaffolding", ["mcp", "code-gen"], ["mcp", "typescript", "server", "scaffolding"], ["api", "library"], ["TypeScript", "MCP"], false, 2⟩,
  ⟨"python-mcp-server-generator", "Python MCP Server Generator", "Generates Python MCP server scaffolding", ["mcp", "code-gen"], ["mcp", "python", "server"], ["api", "data-science"], ["Python", "MCP"], false, 3⟩,
  ⟨"create-spring-boot-java-project", "Spring Boot Java Project", "Creates Spring Boot Java project scaffolding", ["code-gen"], ["spring-boot", "java", "scaffolding"], ["api", "web-app"], ["Java", "Spring Boot"], false, 3⟩,
  ⟨"create-spring-boot-kotlin-project", "Spring Boot Kotlin Project", "Creates Spring Boot Kotlin project scaffolding", ["code-gen"], ["spring-boot", "kotlin", "scaffolding"], ["api"], ["Kotlin", "Spring Boot"], false, 3⟩,
  ⟨"create-web-form", "Create Web Form", "Generates web form components", ["code-gen"], ["form", "web", "components"], ["web-app"], ["HTML", "CSS", "JavaScript"], false, 3⟩,
  ⟨"playwright-generate-test", "Playwright Test Generator", "Generates Playwright E2E test scenarios", ["testing"], ["playwright", "e2e", "test-generation"], ["web-app"], ["Playwright", "TypeScript"], false, 2⟩,
  ⟨"polyglot-test-agent", "Polyglot Test Agent", "Multi-language test generation", ["testing"], ["testing", "polyglot", "multi-language"], ["*"], [], true, 2⟩,
  ⟨"pytest-coverage", "Pytest Coverage", "Python test coverage analysis with pytest", ["testing"], ["pytest", "coverage", "python"], ["api", "data-science"], ["Python", "pytest"], false, 3⟩,
  ⟨"webapp-testing", "Web App Testing", "Web application testing strategy and execution", ["testing"], ["testing", "web", "strategy"], ["web-app"], [], false, 2⟩,
  ⟨"multi-stage-dockerfile", "Multi-Stage Dockerfile", "Creates optimized multi-stage Dockerfiles", ["devops", "infrastructure"], ["docker", "dockerfile", "multi-stage", "optimization"], ["devops", "api", "web-app"], ["Docker"], false, 2⟩,
  ⟨"devops-rollout-plan", "DevOps Rollout Plan", "Creates deployment rollout plans", ["devops"], ["deployment", "rollout", "planning"], ["devops"], [], false, 2⟩,
  ⟨"containerize-aspnetcore", "Containerize ASP.NET Core", "Containerizes ASP.NET Core applications", ["devops"], ["container", "docker", "aspnet"], ["api", "web-app"], ["ASP.NET", ".NET", "Docker"], false, 3⟩,
  ⟨"refactor", "Refactor", "Code refactoring guidance and execution", ["refactor"], ["refactor", "code-quality", "improvement"], ["*"], [], false, 1⟩,
  ⟨"refactor-plan", "Refactor Plan", "Creates refactoring plans", ["refactor"], ["refactor", "planning", "strategy"], ["*"], [], false, 2⟩,
  ⟨"context-map", "Context Map", "Creates context maps for codebases", ["analysis"], ["context", "mapping", "understanding"], ["*"], [], false, 1⟩,
  ⟨"what-context-needed", "What Context Needed", "Identifies what context is needed for a task", ["analysis"], ["context", "analysis", "planning"], ["*"], [], false, 2⟩,
  ⟨"prompt-builder", "Prompt Builder", "Builds and optimizes prompts", ["prompt"], ["prompt", "optimization", "engineering"], ["*"], [], false, 2⟩,
  ⟨"boost-prompt", "Boost Prompt", "Enhances and improves existing prompts", ["prompt"], ["prompt", "enhancement", "improvement"], ["*"], [], false, 3⟩,
  ⟨"editorconfig", "EditorConfig", "Creates .editorconfig files for consistent coding styles", ["project-setup"], ["editorconfig", "coding-style", "consistency"], ["*"], [], false, 1⟩,
  ⟨"create-github-action-workflow-specification", "GitHub Actions Workflow", "Creates GitHub Actions workflow specifications", ["devops", "project-setup"], ["github-actions", "ci", "workflow"], ["*"], ["GitHub Actions"], false, 2⟩,
  ⟨"finalize-agent-prompt", "Finalize Agent Prompt", "Finalizes and polishes agent prompt definitions", ["prompt", "project-setup"], ["agent", "prompt", "finalization"], ["*"], [], false, 2⟩,
  ⟨"dotnet-upgrade", ".NET Upgrade", ".NET framework/version upgrade assistance", ["migration"], ["dotnet", "upgrade", "migration"], ["web-app", "api"], [".NET", "C#"], false, 3⟩,
  ⟨"excalidraw-diagram-generator", "Excalidraw Diagram Generator", "Generates Excalidraw diagrams with templates for various diagram types", ["document-gen"], ["excalidraw", "diagrams", "visualization"], ["*"], [], true, 3⟩,
  ⟨"aspire", ".NET Aspire", ".NET Aspire cloud-native application development", ["platform"], ["aspire", "dotnet", "cloud-native"], ["api", "web-app"], [".NET", "Aspire"], true, 3⟩]

/-- Descending-by-score comparator used by the ranker: the JS stable sort with
comparator `(a, b) => b.score - a.score` puts `a` no later than `b` exactly
when `b.score <= a.score`. -/
def scoreDescLE {A : Type} (a b : A × Int) : Bool :=
  decide (b.2 ≤ a.2)

/-- Agents list of `recommendAgentSkills`: score every agent, keep positive
scores, stable-sort descending by score, truncate to `maxAgents`, project the
entries back out. -/
def recommendAgents (projectType : String) (techStack : List String) (userIntent : String)
    (maxAgents : Int) : List AgentEntry :=
  let intentLower := jsToLower userIntent
  let techLower := techStack.map (fun t => jsToLower t)
  ((jsSlice0 maxAgents
      (jsSortBy scoreDescLE
        ((AGENT_REGISTRY.map (fun agent => (agent, scoreAgent projectType techLower intentLower agent))).filter
          (fun s => decide (0 < s.2))))).map (fun s => s.1))

/-- Skills list of `recommendAgentSkills`. -/
def recommendSkills (projectType : String) (techStack : List String) (userIntent : String)
    (maxSkills : Int) : List SkillEntry :=
  let intentLower := jsToLower userIntent
  let techLower := techStack.map (fun t => jsToLower t)
  ((jsSlice0 maxSkills
      (jsSortBy scoreDescLE
        ((SKILL_REGISTRY.map (fun skill => (skill, scoreSkill projectType techLower intentLower skill))).filter
          (fun s => decide (0 < s.2))))).map (fun s => s.1))

/-- Function `recommendAgentSkills`, restricted to its two result lists (the
rendered summary string is plain formatting of these lists). -/
def recommendAgentSkills (projectType : String) (techStack : List String) (userIntent : String)
    (maxAgents maxSkills : Int) : List AgentEntry × List SkillEntry :=
  (recommendAgents projectType techStack userIntent maxAgents,
   recommendSkills projectType techStack userIntent maxSkills)

/-- Agents list of `searchAgentSkills`: keep catalog order, keep entries whose
lower-cased name or description contains the lower-cased query, or one of
whose (not lower-cased) tags or categories contains it. -/
def searchAgents (query : String) : List AgentEntry :=
  let q := jsToLower query
  AGENT_REGISTRY.filter (fun a =>
    jsIncludes (jsToLower a.name) q || jsIncludes (jsToLower a.description) q ||
    a.tags.any (fun t => jsIncludes t q) || a.categories.any (fun c => jsIncludes c q))

/-- Skills list of `searchAgentSkills`. -/
def searchSkills (query : String) : List SkillEntry :=
  let q := jsToLower query
  SKILL_REGISTRY.filter (fun s =>
    jsIncludes (jsToLower s.name) q || jsIncludes (jsToLower s.description) q ||
    s.tags.any (fun t => jsIncludes t q) || s.categories.any (fun c => jsIncludes c q))

/-- Function `searchAgentSkills`, restricted to its two result lists. -/
def searchAgentSkills (query : String) : List AgentEntry × List SkillEntry :=
  (searchAgents query, searchSkills query)

/-- Lexicographic comparison of character lists (JS compares strings by code
units; on the catalog data, code units and characters coincide). -/
def charListLE : List Char → List Char → Bool
  | [], _ => true
  | _ :: _, [] => false
  | a :: as, b :: bs => if a = b then charListLE as bs else decide (a < b)

/-- Lexicographic comparator of the JS default `Array.prototype.sort`. -/
def stringLE (a b : String) : Bool :=
  charListLE a.data b.data

/-- Agent half of `listCategories`: distinct categories over the agent
catalog in first-insertion order (JS `Set`), then sorted lexicographically. -/
def agentCategories : List String :=
  jsSortBy stringLE (((AGENT_REGISTRY.map (fun a => a.categories)).flatten).eraseDups)

/-- Skill half of `listCategories`. -/
def skillCategories : List String :=
  jsSortBy stringLE (((SKILL_REGISTRY.map (fun s => s.categories)).flatten).eraseDups)

/-- Function `listCategories`, as the pair of its two lists. -/
def listCategories : List String × List String :=
  (agentCategories, skillCategories)


/-! ### Basic properties of the string and list helpers -/

theorem jsIncludes_iff {hay needle : String} :
    jsIncludes hay needle = true ↔ needle.toList <:+: hay.toList := by
  simp only [jsIncludes, List.any_eq_true, List.mem_tails, List.isPrefixOf_iff_prefix]
  constructor
  · rintro ⟨t, ht, hp⟩
    exact List.infix_iff_prefix_suffix.mpr ⟨t, hp, ht⟩
  · intro h
    obtain ⟨t, hp, ht⟩ := List.infix_iff_prefix_suffix.mp h
    exact ⟨t, ht, hp⟩

theorem jsIncludes_empty_needle (hay : String) : jsIncludes hay "" = true := by
  have h0 : ("" : String).toList = [] := rfl
  rw [jsIncludes_iff, h0]
  exact List.nil_infix

theorem jsSlice0_of_nonneg {α : Type} {n : Int} (hn : 0 ≤ n) (l : List α) :
    jsSlice0 n l = l.take n.toNat := by
  simp [jsSlice0, Int.not_lt.mpr hn]

/-! ### Decomposition and bounds of the scoring signals -/

theorem foldl_if_add {α : Type} (p : α → Bool) (c : Int) :
    ∀ (l : List α) (s : Int),
      l.foldl (fun acc x => if p x then acc + c else acc) s
        = s + c * ((l.filter p).length : Int)
  | [], s => by simp
  | a :: l, s => by
    cases hpa : p a
    · simp [List.foldl_cons, hpa, List.filter_cons, foldl_if_add p c l s]
    · simp only [List.foldl_cons, hpa, if_true, List.filter_cons, List.length_cons,
        foldl_if_add p c l (s + c)]
      push_cast
      ring

theorem techScore_eq (techLower : List String) (techKeywords : List String) :
    techScore techLower techKeywords
      = 5 * (((techKeywords.filter (fun keyword =>
          techLower.any (fun t =>
            jsIncludes t (jsToLower keyword) || jsIncludes (jsToLower keyword) t))).length : Int)) := by
  simpa using foldl_if_add _ 5 techKeywords 0

theorem tagScore_eq (intentLower : String) (tags : List String) :
    tagScore intentLower tags
      = 3 * (((tags.filter (fun tag => jsIncludes intentLower tag)).length : Int)) := by
  simpa using foldl_if_add _ 3 tags 0

theorem projectTypeScore_nonneg (rel : List String) (pt : String) :
    0 ≤ projectTypeScore rel pt := by
  unfold projectTypeScore
  split <;> norm_num

theorem techScore_nonneg (techLower : List String) (techKeywords : List String) :
    0 ≤ techScore techLower techKeywords := by
  rw [techScore_eq]
  positivity

theorem tagScore_nonneg (intentLower : String) (tags : List String) :
    0 ≤ tagScore intentLower tags := by
  rw [tagScore_eq]
  positivity

theorem priorityBonus_le_scoreAgent (pt : String) (tl : List String) (il : String)
    (a : AgentEntry) : priorityBonus a.priority ≤ scoreAgent pt tl il a := by
  have h1 := projectTypeScore_nonneg a.relevantProjectTypes pt
  have h2 := techScore_nonneg tl a.techKeywords
  have h3 := tagScore_nonneg il a.tags
  unfold scoreAgent
  linarith

theorem priorityBonus_le_scoreSkill (pt : String) (tl : List String) (il : String)
    (s : SkillEntry) : priorityBonus s.priority ≤ scoreSkill pt tl il s := by
  have h1 := projectTypeScore_nonneg s.relevantProjectTypes pt
  have h2 := techScore_nonneg tl s.techKeywords
  have h3 := tagScore_nonneg il s.tags
  unfold scoreSkill
  linarith

/-! ### Facts about the static catalogs -/

theorem agent_priority_cases : ∀ a ∈ AGENT_REGISTRY, a.priority = 1 ∨ a.priority = 2 ∨ a.priority = 3 := by
  decide

theorem skill_priority_cases : ∀ s ∈ SKILL_REGISTRY, s.priority = 1 ∨ s.priority = 2 ∨ s.priority = 3 := by
  decide

theorem agent_registry_nodup : AGENT_REGISTRY.Nodup := by decide

theorem skill_registry_nodup : SKILL_REGISTRY.Nodup := by decide

theorem two_le_scoreAgent (pt : String) (tl : List String) (il : String)
    {a : AgentEntry} (ha : a ∈ AGENT_REGISTRY) : 2 ≤ scoreAgent pt tl il a := by
  have hb := priorityBonus_le_scoreAgent pt tl il a
  have hp := agent_priority_cases a ha
  unfold priorityBonus at hb
  rcases hp with h | h | h <;> rw [h] at hb <;> linarith

theorem two_le_scoreSkill (pt : String) (tl : List String) (il : String)
    {s : SkillEntry} (hs : s ∈ SKILL_REGISTRY) : 2 ≤ scoreSkill pt tl il s := by
  have hb := priorityBonus_le_scoreSkill pt tl il s
  have hp := skill_priority_cases s hs
  unfold priorityBonus at hb
  rcases hp with h | h | h <;> rw [h] at hb <;> linarith


/-! ### Properties of the stable sort -/

theorem insertLE_perm {α : Type} (le : α → α → Bool) (a : α) :
    ∀ l : List α, (insertLE le a l).Perm (a :: l)
  | [] => List.Perm.refl _
  | b :: l => by
    unfold insertLE
    split
    · exact List.Perm.refl _
    · exact ((insertLE_perm le a l).cons b).trans (List.Perm.swap a b l)

theorem jsSortBy_perm {α : Type} (le : α → α → Bool) :
    ∀ l : List α, (jsSortBy le l).Perm l
  | [] => List.Perm.refl _
  | x :: xs =>
    (insertLE_perm le x (jsSortBy le xs)).trans ((jsSortBy_perm le xs).cons x)

theorem length_jsSortBy {α : Type} (le : α → α → Bool) (l : List α) :
    (jsSortBy le l).length = l.length :=
  (jsSortBy_perm le l).length_eq

theorem mem_jsSortBy {α : Type} {le : α → α → Bool} {l : List α} {a : α} :
    a ∈ jsSortBy le l ↔ a ∈ l :=
  (jsSortBy_perm le l).mem_iff

theorem sublist_insertLE {α : Type} (le : α → α → Bool) (a : α) :
    ∀ l : List α, List.Sublist l (insertLE le a l)
  | [] => List.nil_sublist _
  | b :: l => by
    unfold insertLE
    split
    · exact List.sublist_cons_self a (b :: l)
    · exact (sublist_insertLE le a l).cons₂ b

theorem pairwise_insertLE {α : Type} {le : α → α → Bool}
    (trans : ∀ u v w : α, le u v = true → le v w = true → le u w = true)
    (total : ∀ u v : α, (le u v || le v u) = true) (a : α) :
    ∀ {l : List α}, l.Pairwise (fun u v => le u v = true) →
      (insertLE le a l).Pairwise (fun u v => le u v = true)
  | [], _ => by simp [insertLE]
  | b :: l, hp => by
    obtain ⟨hb, hl⟩ := List.pairwise_cons.mp hp
    unfold insertLE
    by_cases hab : le a b = true
    · rw [if_pos hab]
      refine List.pairwise_cons.mpr ⟨?_, hp⟩
      intro y hy
      rcases List.mem_cons.mp hy with rfl | hyl
      · exact hab
      · exact trans a b y hab (hb y hyl)
    · rw [if_neg hab]
      refine List.pairwise_cons.mpr ⟨?_, pairwise_insertLE trans total a hl⟩
      intro y hy
      rcases List.mem_cons.mp ((insertLE_perm le a l).mem_iff.mp hy) with heq | hyl
      · rw [heq]
        rcases Bool.or_eq_true_iff.mp (total a b) with h2 | h2
        · exact absurd h2 hab
        · exact h2
      · exact hb y hyl

theorem pairwise_jsSortBy {α : Type} {le : α → α → Bool}
    (trans : ∀ u v w : α, le u v = true → le v w = true → le u w = true)
    (total : ∀ u v : α, (le u v || le v u) = true) :
    ∀ l : List α, (jsSortBy le l).Pairwise (fun u v => le u v = true)
  | [] => List.Pairwise.nil
  | x :: xs => pairwise_insertLE trans total x (pairwise_jsSortBy trans total xs)

theorem pair_sublist_insertLE {α : Type} {le : α → α → Bool} {x a : α}
    (hxa : le x a = true) :
    ∀ {l : List α}, a ∈ l → List.Sublist [x, a] (insertLE le x l)
  | [], ha => absurd ha (List.not_mem_nil a)
  | c :: t, ha => by
    unfold insertLE
    by_cases hxc : le x c = true
    · rw [if_pos hxc]
      exact (List.singleton_sublist.mpr ha).cons₂ x
    · rw [if_neg hxc]
      rcases List.mem_cons.mp ha with rfl | hat
      · exact absurd hxa hxc
      · exact (pair_sublist_insertLE hxa hat).cons c

theorem pair_sublist_jsSortBy {α : Type} {le : α → α → Bool} {b a : α}
    (hba : le b a = true) :
    ∀ {l : List α}, List.Sublist [b, a] l → List.Sublist [b, a] (jsSortBy le l)
  | x :: xs, h => by
    cases h with
    | cons _ ht =>
      exact (pair_sublist_jsSortBy hba ht).trans
        (sublist_insertLE le x (jsSortBy le xs))
    | cons₂ _ ht =>
      have ha : a ∈ jsSortBy le xs :=
        mem_jsSortBy.mpr (ht.subset (by simp))
      exact pair_sublist_insertLE hba ha

/-! ### Generic properties of the rank/filter/sort/truncate pipeline -/

theorem scoreDescLE_trans {E : Type} (a b c : E × Int)
    (h1 : scoreDescLE a b = true) (h2 : scoreDescLE b c = true) : scoreDescLE a c = true := by
  simp only [scoreDescLE, decide_eq_true_eq] at h1 h2 ⊢
  exact le_trans h2 h1

theorem scoreDescLE_total {E : Type} (a b : E × Int) :
    (scoreDescLE a b || scoreDescLE b a) = true := by
  simp only [scoreDescLE, Bool.or_eq_true, decide_eq_true_eq]
  exact le_total b.2 a.2

/-- The scored-and-ranked pair list of one catalog pass: score every entry,
keep positive scores, stable-sort descending. -/
def rankedPairs {E : Type} (reg : List E) (sc : E → Int) : List (E × Int) :=
  jsSortBy scoreDescLE ((reg.map (fun e => (e, sc e))).filter (fun s => decide (0 < s.2)))

theorem filter_noop {E : Type} {reg : List E} {sc : E → Int}
    (hpos : ∀ e ∈ reg, 0 < sc e) :
    (reg.map (fun e => (e, sc e))).filter (fun s => decide (0 < s.2))
      = reg.map (fun e => (e, sc e)) := by
  apply List.filter_eq_self.mpr
  intro x hx
  obtain ⟨e, he, rfl⟩ := List.mem_map.mp hx
  exact decide_eq_true (hpos e he)

theorem rankedPairs_length {E : Type} {reg : List E} {sc : E → Int}
    (hpos : ∀ e ∈ reg, 0 < sc e) :
    (rankedPairs reg sc).length = reg.length := by
  rw [rankedPairs, length_jsSortBy, filter_noop hpos, List.length_map]

theorem mem_rankedPairs {E : Type} {reg : List E} {sc : E → Int} {x : E × Int}
    (hx : x ∈ rankedPairs reg sc) : x.1 ∈ reg ∧ x.2 = sc x.1 := by
  rw [rankedPairs, mem_jsSortBy, List.mem_filter] at hx
  obtain ⟨e, he, rfl⟩ := List.mem_map.mp hx.1
  exact ⟨he, rfl⟩

theorem mapFst_filter_sublist {E : Type} (reg : List E) (sc : E → Int) :
    List.Sublist
      (((reg.map (fun e => (e, sc e))).filter (fun s => decide (0 < s.2))).map
        (fun s : E × Int => s.1)) reg := by
  have h : List.Sublist
      ((((reg.map (fun e => (e, sc e))).filter (fun s => decide (0 < s.2))).map
        (fun s : E × Int => s.1)))
      ((reg.map (fun e => (e, sc e))).map (fun s : E × Int => s.1)) :=
    (List.filter_sublist _).map _
  simpa [List.map_map, Function.comp_def] using h

theorem mapFst_rankedPairs_perm {E : Type} (reg : List E) (sc : E → Int) :
    ((rankedPairs reg sc).map (fun s : E × Int => s.1)).Perm
      (((reg.map (fun e => (e, sc e))).filter (fun s => decide (0 < s.2))).map
        (fun s : E × Int => s.1)) :=
  (jsSortBy_perm _ _).map _

theorem rankedPairs_nodup {E : Type} {reg : List E} {sc : E → Int}
    (hreg : reg.Nodup) : (rankedPairs reg sc).Nodup := by
  have hmap : (reg.map (fun e => (e, sc e))).Nodup :=
    hreg.map (fun a b h => congrArg Prod.fst h)
  exact ((jsSortBy_perm scoreDescLE _).nodup_iff).mpr (hmap.filter _)

theorem mapFst_rankedPairs_nodup {E : Type} {reg : List E} {sc : E → Int}
    (hreg : reg.Nodup) : ((rankedPairs reg sc).map (fun s : E × Int => s.1)).Nodup :=
  ((mapFst_rankedPairs_perm reg sc).nodup_iff).mpr
    ((mapFst_filter_sublist reg sc).nodup hreg)

theorem pipeline_output_eq {E : Type} (reg : List E) (sc : E → Int) {n : Int} (hn : 0 ≤ n) :
    (jsSlice0 n (rankedPairs reg sc)).map (fun s : E × Int => s.1)
      = ((rankedPairs reg sc).map (fun s : E × Int => s.1)).take n.toNat := by
  rw [jsSlice0_of_nonneg hn, List.map_take]

theorem pipeline_length {E : Type} {reg : List E} {sc : E → Int}
    (hpos : ∀ e ∈ reg, 0 < sc e) {n : Int} (hn : 0 < n) :
    ((jsSlice0 n (rankedPairs reg sc)).map (fun s : E × Int => s.1)).length
      = min reg.length n.toNat := by
  rw [pipeline_output_eq reg sc hn.le, List.length_take, List.length_map,
    rankedPairs_length hpos, Nat.min_comm]

theorem pipeline_nodup {E : Type} {reg : List E} {sc : E → Int}
    (hreg : reg.Nodup) (n : Int) :
    ((jsSlice0 n (rankedPairs reg sc)).map (fun s : E × Int => s.1)).Nodup := by
  have hsub : List.Sublist
      ((jsSlice0 n (rankedPairs reg sc)).map (fun s : E × Int => s.1))
      ((rankedPairs reg sc).map (fun s : E × Int => s.1)) :=
    (List.take_sublist _ _).map _
  exact hsub.nodup (mapFst_rankedPairs_nodup hreg)

theorem pipeline_mem {E : Type} {reg : List E} {sc : E → Int} {n : Int} {e : E}
    (he : e ∈ (jsSlice0 n (rankedPairs reg sc)).map (fun s : E × Int => s.1)) :
    e ∈ reg := by
  obtain ⟨x, hx, rfl⟩ := List.mem_map.mp he
  have hx2 : x ∈ rankedPairs reg sc := List.mem_of_mem_take hx
  exact (mem_rankedPairs hx2).1


/-! ### Stability of the stable descending sort -/

theorem pair_sublist_or {E : Type} :
    ∀ (l : List E) (a b : E), a ∈ l → b ∈ l → a ≠ b →
      List.Sublist [a, b] l ∨ List.Sublist [b, a] l
  | [], a, b, ha, _, _ => absurd ha (List.not_mem_nil a)
  | c :: t, a, b, ha, hb, hne => by
    rcases List.mem_cons.mp ha with rfl | hat
    · rcases List.mem_cons.mp hb with rfl | hbt
      · exact absurd rfl hne
      · exact Or.inl ((List.singleton_sublist.mpr hbt).cons₂ a)
    · rcases List.mem_cons.mp hb with rfl | hbt
      · exact Or.inr ((List.singleton_sublist.mpr hat).cons₂ b)
      · rcases pair_sublist_or t a b hat hbt hne with h | h
        · exact Or.inl (h.cons c)
        · exact Or.inr (h.cons c)

theorem not_pair_sublist_both {E : Type} :
    ∀ {l : List E}, l.Nodup → ∀ {a b : E},
      List.Sublist [a, b] l → List.Sublist [b, a] l → False
  | [], _, a, _, h1, _ => by cases h1
  | c :: t, hnd, a, b, h1, h2 => by
    have hct : c ∉ t := (List.nodup_cons.mp hnd).1
    have hndt : t.Nodup := (List.nodup_cons.mp hnd).2
    cases h1 with
    | cons _ h1t =>
      cases h2 with
      | cons _ h2t => exact not_pair_sublist_both hndt h1t h2t
      | cons₂ _ h2t =>
        exact hct (h1t.subset (by simp))
    | cons₂ _ h1t =>
      cases h2 with
      | cons _ h2t =>
        exact hct (h2t.subset (by simp))
      | cons₂ _ h2t =>
        exact hct (h2t.subset (by simp))


theorem pipeline_stable {E : Type} {reg : List E} {sc : E → Int}
    (hreg : reg.Nodup) (hpos : ∀ e ∈ reg, 0 < sc e) (n : Int) {a b : E}
    (hs : sc a = sc b)
    (hsub : List.Sublist [a, b]
      ((jsSlice0 n (rankedPairs reg sc)).map (fun s : E × Int => s.1))) :
    List.Sublist [a, b] reg := by
  have htake : List.Sublist (jsSlice0 n (rankedPairs reg sc)) (rankedPairs reg sc) := by
    unfold jsSlice0
    exact List.take_sublist _ _
  have h1 : List.Sublist [a, b] ((rankedPairs reg sc).map (fun s : E × Int => s.1)) :=
    hsub.trans (htake.map _)
  obtain ⟨l2, hl2, heq⟩ := List.sublist_map_iff.mp h1
  match l2, hl2, heq with
  | [x, y], hl2, heq =>
  obtain ⟨hax, hby⟩ : a = x.1 ∧ b = y.1 := by
    simpa using heq
  have hx : x ∈ rankedPairs reg sc := hl2.subset (by simp)
  have hy : y ∈ rankedPairs reg sc := hl2.subset (by simp)
  obtain ⟨hxreg, hxsc⟩ := mem_rankedPairs hx
  obtain ⟨hyreg, hysc⟩ := mem_rankedPairs hy
  have hxe : x = (a, sc a) := by
    rw [hax]
    exact Prod.ext rfl hxsc
  have hye : y = (b, sc b) := by
    rw [hby]
    exact Prod.ext rfl hysc
  have hareg : a ∈ reg := hax ▸ hxreg
  have hbreg : b ∈ reg := hby ▸ hyreg
  rw [hxe, hye] at hl2
  by_cases hab : a = b
  · exfalso
    rw [hab] at hl2
    exact (List.nodup_iff_sublist.mp (rankedPairs_nodup hreg)) (b, sc b) hl2
  · rcases pair_sublist_or reg a b hareg hbreg hab with h | h
    · exact h
    · exfalso
      have hmap : List.Sublist [(b, sc b), (a, sc a)] (reg.map (fun e => (e, sc e))) := by
        simpa using h.map (fun e => (e, sc e))
      have hfil : List.Sublist [(b, sc b), (a, sc a)]
          ((reg.map (fun e => (e, sc e))).filter (fun s => decide (0 < s.2))) := by
        have h2 := hmap.filter (fun s => decide (0 < s.2))
        rwa [show ([(b, sc b), (a, sc a)].filter (fun s : E × Int => decide (0 < s.2)))
            = [(b, sc b), (a, sc a)] from by
          simp [List.filter, decide_eq_true (hpos b hbreg), decide_eq_true (hpos a hareg)]]
          at h2
      have hle : scoreDescLE (b, sc b) (a, sc a) = true := by
        simp [scoreDescLE, hs]
      have hsorted : List.Sublist [(b, sc b), (a, sc a)] (rankedPairs reg sc) :=
        pair_sublist_jsSortBy hle hfil
      exact not_pair_sublist_both (rankedPairs_nodup hreg) hl2 hsorted


/-! ### Connection of the concrete functions to the generic pipeline -/

theorem recommendAgents_eq (pt : String) (ts : List String) (ui : String) (ma : Int) :
    recommendAgents pt ts ui ma
      = (jsSlice0 ma (rankedPairs AGENT_REGISTRY
          (scoreAgent pt (ts.map (fun t => jsToLower t)) (jsToLower ui)))).map
            (fun s : AgentEntry × Int => s.1) :=
  rfl

theorem recommendSkills_eq (pt : String) (ts : List String) (ui : String) (mk : Int) :
    recommendSkills pt ts ui mk
      = (jsSlice0 mk (rankedPairs SKILL_REGISTRY
          (scoreSkill pt (ts.map (fun t => jsToLower t)) (jsToLower ui)))).map
            (fun s : SkillEntry × Int => s.1) :=
  rfl

theorem scoreAgent_pos (pt : String) (tl : List String) (il : String) :
    ∀ a ∈ AGENT_REGISTRY, 0 < scoreAgent pt tl il a :=
  fun a ha => lt_of_lt_of_le (by norm_num) (two_le_scoreAgent pt tl il ha)

theorem scoreSkill_pos (pt : String) (tl : List String) (il : String) :
    ∀ x ∈ SKILL_REGISTRY, 0 < scoreSkill pt tl il x :=
  fun x hx => lt_of_lt_of_le (by norm_num) (two_le_scoreSkill pt tl il hx)

/-! ### The claims -/

/-- C1: for every request descriptor with positive integer caps, the filter
step of the ranker (keep pairs with score > 0) removes no entry, so the
agents list returned by `recommendAgentSkills` has length
`min |AGENT_REGISTRY| maxAgents` and the skills list has length
`min |SKILL_REGISTRY| maxSkills`. -/
theorem C1_filter_noop_lengths (pt : String) (ts : List String) (ui : String)
    (ma mk : Int) (hma : 0 < ma) (hmk : 0 < mk) :
    ((AGENT_REGISTRY.map (fun a =>
        (a, scoreAgent pt (ts.map (fun t => jsToLower t)) (jsToLower ui) a))).filter
          (fun s => decide (0 < s.2))
      = AGENT_REGISTRY.map (fun a =>
          (a, scoreAgent pt (ts.map (fun t => jsToLower t)) (jsToLower ui) a))) ∧
    ((SKILL_REGISTRY.map (fun x =>
        (x, scoreSkill pt (ts.map (fun t => jsToLower t)) (jsToLower ui) x))).filter
          (fun s => decide (0 < s.2))
      = SKILL_REGISTRY.map (fun x =>
          (x, scoreSkill pt (ts.map (fun t => jsToLower t)) (jsToLower ui) x))) ∧
    (recommendAgentSkills pt ts ui ma mk).1.length = min AGENT_REGISTRY.length ma.toNat ∧
    (recommendAgentSkills pt ts ui ma mk).2.length = min SKILL_REGISTRY.length mk.toNat := by
  refine ⟨filter_noop (scoreAgent_pos pt _ _), filter_noop (scoreSkill_pos pt _ _), ?_, ?_⟩
  · show (recommendAgents pt ts ui ma).length = _
    rw [recommendAgents_eq]
    exact pipeline_length (scoreAgent_pos pt _ _) hma
  · show (recommendSkills pt ts ui mk).length = _
    rw [recommendSkills_eq]
    exact pipeline_length (scoreSkill_pos pt _ _) hmk

theorem C1_witness :
    ((AGENT_REGISTRY.map (fun a =>
        (a, scoreAgent "other" (([] : List String).map (fun t => jsToLower t)) (jsToLower "") a))).filter
          (fun s => decide (0 < s.2))
      = AGENT_REGISTRY.map (fun a =>
          (a, scoreAgent "other" (([] : List String).map (fun t => jsToLower t)) (jsToLower "") a))) ∧
    ((SKILL_REGISTRY.map (fun x =>
        (x, scoreSkill "other" (([] : List String).map (fun t => jsToLower t)) (jsToLower "") x))).filter
          (fun s => decide (0 < s.2))
      = SKILL_REGISTRY.map (fun x =>
          (x, scoreSkill "other" (([] : List String).map (fun t => jsToLower t)) (jsToLower "") x))) ∧
    (recommendAgentSkills "other" [] "" 3 5).1.length = min AGENT_REGISTRY.length (3 : Int).toNat ∧
    (recommendAgentSkills "other" [] "" 3 5).2.length = min SKILL_REGISTRY.length (5 : Int).toNat :=
  C1_filter_noop_lengths "other" [] "" 3 5 (by decide) (by decide)

/-- C2: for every catalog entry and every request descriptor, the computed
score is at least `(4 - priority) * 2` (this floor is proved for arbitrary
entries), and since every catalog entry has priority in {1, 2, 3}, every
catalog entry scores at least 2 even with zero relevance signals. -/
theorem C2_priority_floor (pt : String) (tl : List String) (il : String) :
    (∀ a : AgentEntry, (4 - a.priority) * 2 ≤ scoreAgent pt tl il a) ∧
    (∀ x : SkillEntry, (4 - x.priority) * 2 ≤ scoreSkill pt tl il x) ∧
    (∀ a ∈ AGENT_REGISTRY, a.priority = 1 ∨ a.priority = 2 ∨ a.priority = 3) ∧
    (∀ x ∈ SKILL_REGISTRY, x.priority = 1 ∨ x.priority = 2 ∨ x.priority = 3) ∧
    (∀ a ∈ AGENT_REGISTRY, 2 ≤ scoreAgent pt tl il a) ∧
    (∀ x ∈ SKILL_REGISTRY, 2 ≤ scoreSkill pt tl il x) :=
  ⟨fun a => priorityBonus_le_scoreAgent pt tl il a,
   fun x => priorityBonus_le_scoreSkill pt tl il x,
   agent_priority_cases, skill_priority_cases,
   fun _ ha => two_le_scoreAgent pt tl il ha,
   fun _ hx => two_le_scoreSkill pt tl il hx⟩

theorem C2_witness :
    (AGENT_REGISTRY.headI ∈ AGENT_REGISTRY ∧
      2 ≤ scoreAgent "other" [] "" AGENT_REGISTRY.headI) ∧
    (SKILL_REGISTRY.headI ∈ SKILL_REGISTRY ∧
      2 ≤ scoreSkill "other" [] "" SKILL_REGISTRY.headI) :=
  ⟨⟨by decide, (C2_priority_floor "other" [] "").2.2.2.2.1 AGENT_REGISTRY.headI (by decide)⟩,
   ⟨by decide, (C2_priority_floor "other" [] "").2.2.2.2.2 SKILL_REGISTRY.headI (by decide)⟩⟩

/-- C7: every entry whose `relevantProjectTypes` contains the wildcard `"*"`
receives the +10 project-type bonus for every possible `projectType` value,
including unrecognized ones. -/
theorem C7_wildcard_bonus (pt : String) (tl : List String) (il : String) :
    (∀ rel : List String, "*" ∈ rel → projectTypeScore rel pt = 10) ∧
    (∀ a : AgentEntry, "*" ∈ a.relevantProjectTypes →
      scoreAgent pt tl il a
        = 10 + techScore tl a.techKeywords + tagScore il a.tags + priorityBonus a.priority) ∧
    (∀ x : SkillEntry, "*" ∈ x.relevantProjectTypes →
      scoreSkill pt tl il x
        = 10 + techScore tl x.techKeywords + tagScore il x.tags + priorityBonus x.priority) := by
  have hps : ∀ rel : List String, "*" ∈ rel → projectTypeScore rel pt = 10 := by
    intro rel h
    have hc : rel.contains "*" = true := by
      rw [List.contains_iff_exists_mem_beq]
      exact ⟨"*", h, by simp⟩
    simp [projectTypeScore, hc, h]
  refine ⟨hps, fun a ha => ?_, fun x hx => ?_⟩
  · rw [scoreAgent, hps a.relevantProjectTypes ha]
  · rw [scoreSkill, hps x.relevantProjectTypes hx]

theorem C7_witness :
    ("*" ∈ AGENT_REGISTRY.headI.relevantProjectTypes ∧
      scoreAgent "unknown-type" [] "" AGENT_REGISTRY.headI
        = 10 + techScore [] AGENT_REGISTRY.headI.techKeywords
            + tagScore "" AGENT_REGISTRY.headI.tags
            + priorityBonus AGENT_REGISTRY.headI.priority) ∧
    ("*" ∈ SKILL_REGISTRY.headI.relevantProjectTypes ∧
      scoreSkill "unknown-type" [] "" SKILL_REGISTRY.headI
        = 10 + techScore [] SKILL_REGISTRY.headI.techKeywords
            + tagScore "" SKILL_REGISTRY.headI.tags
            + priorityBonus SKILL_REGISTRY.headI.priority) :=
  ⟨⟨by decide, (C7_wildcard_bonus "unknown-type" [] "").2.1 AGENT_REGISTRY.headI (by decide)⟩,
   ⟨by decide, (C7_wildcard_bonus "unknown-type" [] "").2.2 SKILL_REGISTRY.headI (by decide)⟩⟩

/-- C10: for every request descriptor, the two lists returned by
`recommendAgentSkills` are duplicate-free and consist only of entries of the
respective static catalog. -/
theorem C10_output_from_catalog (pt : String) (ts : List String) (ui : String)
    (ma mk : Int) :
    ((recommendAgentSkills pt ts ui ma mk).1.Nodup ∧
      ∀ a ∈ (recommendAgentSkills pt ts ui ma mk).1, a ∈ AGENT_REGISTRY) ∧
    ((recommendAgentSkills pt ts ui ma mk).2.Nodup ∧
      ∀ x ∈ (recommendAgentSkills pt ts ui ma mk).2, x ∈ SKILL_REGISTRY) := by
  constructor
  · constructor
    · show (recommendAgents pt ts ui ma).Nodup
      rw [recommendAgents_eq]
      exact pipeline_nodup agent_registry_nodup ma
    · show ∀ a ∈ recommendAgents pt ts ui ma, a ∈ AGENT_REGISTRY
      intro a ha
      rw [recommendAgents_eq] at ha
      exact pipeline_mem ha
  · constructor
    · show (recommendSkills pt ts ui mk).Nodup
      rw [recommendSkills_eq]
      exact pipeline_nodup skill_registry_nodup mk
    · show ∀ x ∈ recommendSkills pt ts ui mk, x ∈ SKILL_REGISTRY
      intro x hx
      rw [recommendSkills_eq] at hx
      exact pipeline_mem hx

theorem C10_witness :
    AGENT_REGISTRY.headI ∈ (recommendAgentSkills "other" [] "" 1 1).1 ∧
    AGENT_REGISTRY.headI ∈ AGENT_REGISTRY ∧
    SKILL_REGISTRY.headI ∈ (recommendAgentSkills "other" [] "" 1 1).2 ∧
    SKILL_REGISTRY.headI ∈ SKILL_REGISTRY :=
  ⟨by decide,
   (C10_output_from_catalog "other" [] "" 1 1).1.2 AGENT_REGISTRY.headI (by decide),
   by decide,
   (C10_output_from_catalog "other" [] "" 1 1).2.2 SKILL_REGISTRY.headI (by decide)⟩


/-! ### The string comparator agrees with the lexicographic order, and
membership through `eraseDups` -/

theorem charListLE_iff_lex : ∀ l₁ l₂ : List Char,
    charListLE l₁ l₂ = true ↔ (List.Lex (fun a b => a < b) l₁ l₂ ∨ l₁ = l₂)
  | [], [] => by simp [charListLE]
  | [], b :: bs => by simp [charListLE, List.Lex.nil]
  | a :: as, [] => by
    simp only [charListLE, Bool.false_eq_true, false_iff]
    rintro (h | h)
    · cases h
    · cases h
  | a :: as, b :: bs => by
    unfold charListLE
    by_cases hab : a = b
    · subst hab
      rw [if_pos rfl, charListLE_iff_lex as bs]
      constructor
      · rintro (h | rfl)
        · exact Or.inl (List.Lex.cons h)
        · exact Or.inr rfl
      · rintro (h | heq)
        · cases h with
          | cons h => exact Or.inl h
          | rel h => exact absurd h (lt_irrefl a)
        · exact Or.inr (by injection heq)
    · rw [if_neg hab]
      simp only [decide_eq_true_eq]
      constructor
      · intro h
        exact Or.inl (List.Lex.rel h)
      · rintro (h | heq)
        · cases h with
          | cons h => exact absurd rfl hab
          | rel h => exact h
        · exact absurd (by injection heq) hab

theorem stringLE_iff_le (a b : String) : stringLE a b = true ↔ a ≤ b := by
  rw [String.le_iff_toList_le, le_iff_lt_or_eq]
  have h1 : (a.toList < b.toList) ↔ List.Lex (fun a b => a < b) a.data b.data := Iff.rfl
  have h2 : (a.toList = b.toList) ↔ a.data = b.data := Iff.rfl
  rw [h1, h2]
  exact charListLE_iff_lex a.data b.data

theorem mem_eraseDupsLoop {α : Type} [BEq α] [LawfulBEq α] :
    ∀ (as bs : List α) (x : α), x ∈ List.eraseDups.loop as bs ↔ x ∈ as ∨ x ∈ bs
  | [], bs, x => by simp [List.eraseDups.loop]
  | a :: as, bs, x => by
    rw [List.eraseDups.loop]
    cases h : bs.elem a with
    | true =>
      rw [mem_eraseDupsLoop as bs x]
      have ha : a ∈ bs := List.elem_iff.mp h
      constructor
      · rintro (h1 | h1)
        · exact Or.inl (List.mem_cons_of_mem a h1)
        · exact Or.inr h1
      · rintro (h1 | h1)
        · rcases List.mem_cons.mp h1 with rfl | h2
          · exact Or.inr ha
          · exact Or.inl h2
        · exact Or.inr h1
    | false =>
      rw [mem_eraseDupsLoop as (a :: bs) x]
      constructor
      · rintro (h1 | h1)
        · exact Or.inl (List.mem_cons_of_mem a h1)
        · rcases List.mem_cons.mp h1 with rfl | h2
          · exact Or.inl (List.mem_cons_self x as)
          · exact Or.inr h2
      · rintro (h1 | h1)
        · rcases List.mem_cons.mp h1 with rfl | h2
          · exact Or.inr (List.mem_cons_self x bs)
          · exact Or.inl h2
        · exact Or.inr (List.mem_cons_of_mem a h1)

theorem mem_eraseDups {α : Type} [BEq α] [LawfulBEq α] {l : List α} {x : α} :
    x ∈ l.eraseDups ↔ x ∈ l := by
  rw [List.eraseDups, mem_eraseDupsLoop l [] x]
  simp


/-- C3: the ranking is stable: for every request descriptor, whenever two
entries of the same catalog receive identical computed scores, their relative
order in the output of `recommendAgentSkills` (expressed as a two-element
sublist) equals their declaration order in `AGENT_REGISTRY` (respectively
`SKILL_REGISTRY`). -/
theorem C3_stable_ranking (pt : String) (ts : List String) (ui : String) (ma mk : Int) :
    (∀ a b : AgentEntry,
      scoreAgent pt (ts.map (fun t => jsToLower t)) (jsToLower ui) a
        = scoreAgent pt (ts.map (fun t => jsToLower t)) (jsToLower ui) b →
      List.Sublist [a, b] (recommendAgentSkills pt ts ui ma mk).1 →
      List.Sublist [a, b] AGENT_REGISTRY) ∧
    (∀ x y : SkillEntry,
      scoreSkill pt (ts.map (fun t => jsToLower t)) (jsToLower ui) x
        = scoreSkill pt (ts.map (fun t => jsToLower t)) (jsToLower ui) y →
      List.Sublist [x, y] (recommendAgentSkills pt ts ui ma mk).2 →
      List.Sublist [x, y] SKILL_REGISTRY) := by
  constructor
  · intro a b hs hsub
    rw [show (recommendAgentSkills pt ts ui ma mk).1 = recommendAgents pt ts ui ma from rfl,
      recommendAgents_eq] at hsub
    exact pipeline_stable agent_registry_nodup (scoreAgent_pos pt _ _) ma hs hsub
  · intro x y hs hsub
    rw [show (recommendAgentSkills pt ts ui ma mk).2 = recommendSkills pt ts ui mk from rfl,
      recommendSkills_eq] at hsub
    exact pipeline_stable skill_registry_nodup (scoreSkill_pos pt _ _) mk hs hsub

theorem C3_witness :
    (scoreAgent "other" (([] : List String).map (fun t => jsToLower t)) (jsToLower "")
        AGENT_REGISTRY.headI
      = scoreAgent "other" (([] : List String).map (fun t => jsToLower t)) (jsToLower "")
        (AGENT_REGISTRY.drop 1).headI ∧
     List.Sublist [AGENT_REGISTRY.headI, (AGENT_REGISTRY.drop 1).headI]
       (recommendAgentSkills "other" [] "" 3 3).1 ∧
     List.Sublist [AGENT_REGISTRY.headI, (AGENT_REGISTRY.drop 1).headI] AGENT_REGISTRY) ∧
    (scoreSkill "other" (([] : List String).map (fun t => jsToLower t)) (jsToLower "")
        SKILL_REGISTRY.headI
      = scoreSkill "other" (([] : List String).map (fun t => jsToLower t)) (jsToLower "")
        (SKILL_REGISTRY.drop 1).headI ∧
     List.Sublist [SKILL_REGISTRY.headI, (SKILL_REGISTRY.drop 1).headI]
       (recommendAgentSkills "other" [] "" 3 3).2 ∧
     List.Sublist [SKILL_REGISTRY.headI, (SKILL_REGISTRY.drop 1).headI] SKILL_REGISTRY) :=
  ⟨⟨by decide, by decide,
    (C3_stable_ranking "other" [] "" 3 3).1 _ _ (by decide) (by decide)⟩,
   ⟨by decide, by decide,
    (C3_stable_ranking "other" [] "" 3 3).2 _ _ (by decide) (by decide)⟩⟩

/-- C6: in the tech-stack signal, an entry keyword matches iff, after
lower-casing both sides, the keyword and some stack item are in a substring
relationship in either direction; each keyword contributes exactly +5 when it
matches at least one stack item, regardless of how many items it matches;
with the concrete instances named by the spec. -/
theorem C6_tech_matching :
    (∀ (techStack : List String) (keyword : String),
      ((techStack.map (fun t => jsToLower t)).any
          (fun t => jsIncludes t (jsToLower keyword) || jsIncludes (jsToLower keyword) t)) = true
        ↔ ∃ item ∈ techStack,
            (jsToLower keyword).toList <:+: (jsToLower item).toList ∨
            (jsToLower item).toList <:+: (jsToLower keyword).toList) ∧
    (∀ (techLower : List String) (kws : List String),
      techScore techLower kws
        = 5 * (((kws.filter (fun keyword => techLower.any
            (fun t => jsIncludes t (jsToLower keyword) ||
              jsIncludes (jsToLower keyword) t))).length : Int))) ∧
    techScore (["react"].map (fun t => jsToLower t)) ["React"] = 5 ∧
    techScore (["REACT"].map (fun t => jsToLower t)) ["React"] = 5 ∧
    techScore (["TypeScript 5"].map (fun t => jsToLower t)) ["TypeScript"] = 5 ∧
    techScore (["React", "react native"].map (fun t => jsToLower t)) ["React"] = 5 := by
  refine ⟨?_, techScore_eq, by decide, by decide, by decide, by decide⟩
  intro stack kw
  constructor
  · intro h
    obtain ⟨t, ht, hp⟩ := List.any_eq_true.mp h
    obtain ⟨item, hitem, rfl⟩ := List.mem_map.mp ht
    rcases Bool.or_eq_true_iff.mp hp with h2 | h2
    · exact ⟨item, hitem, Or.inl (jsIncludes_iff.mp h2)⟩
    · exact ⟨item, hitem, Or.inr (jsIncludes_iff.mp h2)⟩
  · rintro ⟨item, hitem, h2 | h2⟩
    · exact List.any_eq_true.mpr ⟨jsToLower item, List.mem_map_of_mem _ hitem,
        Bool.or_eq_true_iff.mpr (Or.inl (jsIncludes_iff.mpr h2))⟩
    · exact List.any_eq_true.mpr ⟨jsToLower item, List.mem_map_of_mem _ hitem,
        Bool.or_eq_true_iff.mpr (Or.inr (jsIncludes_iff.mpr h2))⟩

/-- C4 (counterexample): with projectType "unknown-type", empty stack and
intent and caps 100, the agents list is NOT ordered purely by the priority
bonus `(4 - priority) * 2` descending: wildcard entries still receive the +10
project-type bonus, which reorders the list. -/
theorem C4_counterexample :
    ¬ ((recommendAgentSkills "unknown-type" [] "" 100 100).1.Pairwise
        (fun a b => priorityBonus b.priority ≤ priorityBonus a.priority)) := by
  decide

/-- C4 (amended): `recommendAgentSkills` on projectType "unknown-type" with
caps 100 returns every entry of both catalogs (the unrecognized projectType
is never rejected); each list is the stable descending sort of its catalog by
the full score at this descriptor — the project-type bonus still applies to
wildcard entries — with ties broken by catalog declaration order. -/
theorem C4_amended :
    ((recommendAgentSkills "unknown-type" [] "" 100 100).1).Perm AGENT_REGISTRY ∧
    (recommendAgentSkills "unknown-type" [] "" 100 100).1
      = jsSortBy (fun a b =>
          decide (scoreAgent "unknown-type" [] "" b ≤ scoreAgent "unknown-type" [] "" a))
          AGENT_REGISTRY ∧
    ((recommendAgentSkills "unknown-type" [] "" 100 100).2).Perm SKILL_REGISTRY ∧
    (recommendAgentSkills "unknown-type" [] "" 100 100).2
      = jsSortBy (fun x y =>
          decide (scoreSkill "unknown-type" [] "" y ≤ scoreSkill "unknown-type" [] "" x))
          SKILL_REGISTRY := by
  have hA : (recommendAgentSkills "unknown-type" [] "" 100 100).1
      = jsSortBy (fun a b =>
          decide (scoreAgent "unknown-type" [] "" b ≤ scoreAgent "unknown-type" [] "" a))
          AGENT_REGISTRY := by decide
  have hS : (recommendAgentSkills "unknown-type" [] "" 100 100).2
      = jsSortBy (fun x y =>
          decide (scoreSkill "unknown-type" [] "" y ≤ scoreSkill "unknown-type" [] "" x))
          SKILL_REGISTRY := by decide
  refine ⟨?_, hA, ?_, hS⟩
  · rw [hA]
    exact jsSortBy_perm _ _
  · rw [hS]
    exact jsSortBy_perm _ _

/-- C5 (counterexample): `searchAgentSkills "docker"` does NOT return the
platform-sre-kubernetes agent — none of that entry name, description, tags or
categories mentions "docker" (only its `techKeywords`, which search ignores). -/
theorem C5_counterexample :
    ¬ ∃ a ∈ (searchAgentSkills "docker").1, a.id = "platform-sre-kubernetes" := by
  decide

/-- C5 (amended): `searchAgentSkills "docker"` returns the
multi-stage-dockerfile skill but no agents at all (in particular not
platform-sre-kubernetes), and every entry it returns has "docker" as a
case-insensitive substring of its name, description, some tag, or some
category. -/
theorem C5_amended :
    (∃ s ∈ (searchAgentSkills "docker").2, s.id = "multi-stage-dockerfile") ∧
    (searchAgentSkills "docker").1 = [] ∧
    ((searchAgentSkills "docker").1.all (fun a =>
        jsIncludes (jsToLower a.name) "docker" ||
        jsIncludes (jsToLower a.description) "docker" ||
        a.tags.any (fun t => jsIncludes (jsToLower t) "docker") ||
        a.categories.any (fun c => jsIncludes (jsToLower c) "docker"))) = true ∧
    ((searchAgentSkills "docker").2.all (fun s =>
        jsIncludes (jsToLower s.name) "docker" ||
        jsIncludes (jsToLower s.description) "docker" ||
        s.tags.any (fun t => jsIncludes (jsToLower t) "docker") ||
        s.categories.any (fun c => jsIncludes (jsToLower c) "docker"))) = true := by
  exact ⟨by decide, by decide, by decide, by decide⟩

/-- C8: `searchAgentSkills` with the empty query returns every entry of
`AGENT_REGISTRY` and every entry of `SKILL_REGISTRY`, each list in catalog
declaration order. -/
theorem C8_empty_query :
    searchAgentSkills "" = (AGENT_REGISTRY, SKILL_REGISTRY) := by
  have hA : searchAgents "" = AGENT_REGISTRY := by
    apply List.filter_eq_self.mpr
    intro a ha
    simp [jsIncludes_empty_needle, show jsToLower "" = "" from rfl]
  have hS : searchSkills "" = SKILL_REGISTRY := by
    apply List.filter_eq_self.mpr
    intro x hx
    simp [jsIncludes_empty_needle, show jsToLower "" = "" from rfl]
  show (searchAgents "", searchSkills "") = _
  rw [hA, hS]

/-- C9: the two lists of `listCategories` contain no duplicates, are sorted
lexicographically, and their elements are exactly the categories appearing in
some entry of the respective catalog. -/
theorem C9_categories :
    agentCategories.Nodup ∧
    agentCategories.Pairwise (fun a b => a ≤ b) ∧
    (∀ c, c ∈ agentCategories ↔ ∃ a ∈ AGENT_REGISTRY, c ∈ a.categories) ∧
    skillCategories.Nodup ∧
    skillCategories.Pairwise (fun a b => a ≤ b) ∧
    (∀ c, c ∈ skillCategories ↔ ∃ x ∈ SKILL_REGISTRY, c ∈ x.categories) := by
  have hpa : agentCategories.Pairwise (fun a b => stringLE a b = true) := by decide
  have hps : skillCategories.Pairwise (fun a b => stringLE a b = true) := by decide
  refine ⟨by decide, hpa.imp (fun h => (stringLE_iff_le _ _).mp h), ?_,
    by decide, hps.imp (fun h => (stringLE_iff_le _ _).mp h), ?_⟩
  · intro c
    rw [agentCategories, mem_jsSortBy, mem_eraseDups, List.mem_flatten]
    constructor
    · rintro ⟨l, hl, hc⟩
      obtain ⟨a, ha, rfl⟩ := List.mem_map.mp hl
      exact ⟨a, ha, hc⟩
    · rintro ⟨a, ha, hc⟩
      exact ⟨a.categories, List.mem_map_of_mem _ ha, hc⟩
  · intro c
    rw [skillCategories, mem_jsSortBy, mem_eraseDups, List.mem_flatten]
    constructor
    · rintro ⟨l, hl, hc⟩
      obtain ⟨x, hx, rfl⟩ := List.mem_map.mp hl
      exact ⟨x, hx, hc⟩
    · rintro ⟨x, hx, hc⟩
      exact ⟨x.categories, List.mem_map_of_mem _ hx, hc⟩

end WorkspaceInitMcp
